import Mathlib

/-!
Formal model of the quote pricing/calculation engine of the eliphasx-v2
backend, and proofs of the arithmetic invariants its specification states.

The engine itself lives in `services/calculationService.js`, which is not
shipped under `src/` (only its callers are: `src/routes/quotes.js`,
`src/unnamed/part_014` and `src/services/pdfService.js`).  The engine
definitions below are therefore modelled from the specification text
(sections 3, 4.2, 6, 7 of the spec), and each such definition is marked
`Modelled from the spec:` in its doc comment.  The persistence step of the
quote routes, by contrast, is embedded directly from the code in
`src/routes/quotes.js` and `src/unnamed/part_014`.

All currency and percentage amounts are modelled as exact rationals (the
spec mandates decimal/fixed-point arithmetic with no binary-float drift,
so exact rational arithmetic is the faithful idealisation).
-/

/-- One design variation of a collection-mode quote (spec section 3): an
alternate metal specification with its own enabled flag, metal type,
weight, wastage and markup.  `enabled` is `Option Bool` because the JSON
field may be absent; the spec includes a variation whenever
`enabled !== false`. -/
structure DesignVariation where
  enabled : Option Bool := none
  metal_type : Option String := none
  metal_weight : Option ℚ := none
  metal_wastage : Option ℚ := none
  metal_markup : Option ℚ := none
deriving DecidableEq, Inhabited

/-- One stone category entry (spec section 3): keys into the stone rate
table, a count, and an optional caller-supplied cost-per-stone override. -/
structure StoneCategory where
  stone_type : String := ""
  setting_style : String := ""
  size_category : String := ""
  count : Option ℚ := none
  cost_per_stone : Option ℚ := none
deriving DecidableEq, Inhabited

/-- One findings line item: a cost field (spec section 3). -/
structure Finding where
  cost : Option ℚ := none
deriving DecidableEq, Inhabited

/-- The raw quote request body (spec section 3): a flat set of optional
fields grouped by section.  Missing numeric fields are `none`; the engine
applies the documented defaults (0 everywhere, 10 for wastage).
`metal_spot_price`, `subtotal` and `total` may be supplied by the caller
but are never read by the engine (canonical-rate-wins, spec section 4.2);
they are carried here so that ignoring them is provable. -/
structure QuoteRequest where
  metal_type : Option String := none
  metal_weight : Option ℚ := none
  metal_spot_price : Option ℚ := none
  metal_wastage : Option ℚ := none
  metal_markup : Option ℚ := none
  design_variations : List DesignVariation := []
  stone_categories : List StoneCategory := []
  stone_markup : Option ℚ := none
  cad_hours : Option ℚ := none
  cad_base_rate : Option ℚ := none
  cad_revisions : Option ℚ := none
  include_rendering_cost : Bool := false
  cad_rendering_cost : Option ℚ := none
  include_technical_cost : Bool := false
  cad_technical_cost : Option ℚ := none
  cad_markup : Option ℚ := none
  manufacturing_hours : Option ℚ := none
  manufacturing_base_rate : Option ℚ := none
  manufacturing_markup : Option ℚ := none
  finishing_cost : Option ℚ := none
  include_plating_cost : Bool := false
  plating_cost : Option ℚ := none
  finishing_markup : Option ℚ := none
  findings : List Finding := []
  findings_markup : Option ℚ := none
  subtotal : Option ℚ := none
  total : Option ℚ := none
deriving DecidableEq, Inhabited

/-- One stone-rate row of the rate snapshot: setting cost keyed by
(stone type, setting style, size category) (spec section 6). -/
structure StoneRate where
  stoneType : String
  settingStyle : String
  sizeCategory : String
  cost : ℚ
deriving DecidableEq, Inhabited

/-- The rate snapshot returned by the Rate Provider (spec section 6):
metal-type key to spot price, and the stone setting cost rows. -/
structure RateSnapshot where
  metalPrices : List (String × ℚ) := []
  stonePrices : List StoneRate := []
deriving DecidableEq, Inhabited

/-- The metal section of a calculation result.  The routes read
`calculated.sections.metal.spotPrice` as the validated spot price. -/
structure MetalSection where
  cost : ℚ
  price : ℚ
  spotPrice : ℚ
deriving DecidableEq, Inhabited

/-- A `{cost, price}` pair of one section of the result (spec section 3). -/
structure SectionResult where
  cost : ℚ
  price : ℚ
deriving DecidableEq, Inhabited

/-- The per-section breakdown of a calculation result (spec section 3). -/
structure Sections where
  metal : MetalSection
  stones : SectionResult
  cad : SectionResult
  manufacturing : SectionResult
  finishing : SectionResult
  findings : SectionResult
deriving DecidableEq, Inhabited

/-- The aggregated totals of a calculation result (spec section 3). -/
structure Totals where
  subtotalCost : ℚ
  overhead : ℚ
  profit : ℚ
  totalPrice : ℚ
  margin : ℚ
deriving DecidableEq, Inhabited

/-- The full calculation result (spec section 3). -/
structure CalculationResult where
  sections : Sections
  totals : Totals
deriving DecidableEq, Inhabited

/-- First-match lookup of a metal-type key in the snapshot's price list. -/
def findPrice : List (String × ℚ) → String → Option ℚ
  | [], _ => none
  | p :: rest, t => if p.1 = t then some p.2 else findPrice rest t

/-- First-match lookup of a (stone type, setting style, size category)
triple in the snapshot's stone rates. -/
def findStoneCost : List StoneRate → String → String → String → Option ℚ
  | [], _, _, _ => none
  | s :: rest, t, st, sz =>
      if s.stoneType = t ∧ s.settingStyle = st ∧ s.sizeCategory = sz then some s.cost
      else findStoneCost rest t st sz

/-- Modelled from the spec: metal resolution of `calculateQuote` in the
missing `services/calculationService.js` (spec section 4.2).  With no
metal type the section is zero; an unknown metal type is the distinguished
validation failure carrying the offending key; otherwise
cost = weight times spot times (1 + wastage/100) and
price = cost times (1 + markup/100), using the snapshot's spot price. -/
def resolveMetal (r : RateSnapshot) (mt : Option String) (w wa mk : ℚ) :
    Except String MetalSection :=
  match mt with
  | none => Except.ok ⟨0, 0, 0⟩
  | some t =>
    match findPrice r.metalPrices t with
    | none => Except.error t
    | some sp =>
      let cost := w * sp * (1 + wa / 100)
      Except.ok ⟨cost, cost * (1 + mk / 100), sp⟩

/-- Modelled from the spec: one design variation's metal contribution in
collection mode (spec section 4.2).  A variation with `enabled = false`
contributes zero; any other variation is resolved exactly as single-metal
mode with its own fields and defaults. -/
def variationMetal (r : RateSnapshot) (v : DesignVariation) : Except String MetalSection :=
  if v.enabled = some false then Except.ok ⟨0, 0, 0⟩
  else resolveMetal r v.metal_type (v.metal_weight.getD 0) (v.metal_wastage.getD 10)
        (v.metal_markup.getD 0)

/-- Modelled from the spec: collection-mode summation (spec section 4.2):
sum of variation costs and sum of variation prices, propagating the first
metal-validation failure. -/
def resolveVariations (r : RateSnapshot) : List DesignVariation → Except String (ℚ × ℚ)
  | [] => Except.ok (0, 0)
  | v :: vs =>
    match variationMetal r v with
    | Except.error t => Except.error t
    | Except.ok m =>
      match resolveVariations r vs with
      | Except.error t => Except.error t
      | Except.ok cp => Except.ok (m.cost + cp.1, m.price + cp.2)

/-- Modelled from the spec: the collection-mode metal section — the sums
of the variation costs and prices (spec section 4.2). -/
def collectionPart (r : RateSnapshot) (vs : List DesignVariation) :
    Except String MetalSection :=
  match resolveVariations r vs with
  | Except.error t => Except.error t
  | Except.ok cp => Except.ok ⟨cp.1, cp.2, 0⟩

/-- Modelled from the spec: the metal section of the result.  Collection
mode (variations present and non-empty) and single-metal mode are mutually
exclusive; when variations are present the single-metal fields are ignored
(spec section 4.2). -/
def metalPart (q : QuoteRequest) (r : RateSnapshot) : Except String MetalSection :=
  if q.design_variations.isEmpty then
    resolveMetal r q.metal_type (q.metal_weight.getD 0) (q.metal_wastage.getD 10)
      (q.metal_markup.getD 0)
  else
    collectionPart r q.design_variations

/-- Modelled from the spec: cost-per-stone of one entry — the caller's
override if present, otherwise the snapshot value for the triple key,
otherwise 0 (spec section 4.2). -/
def stoneUnitCost (r : RateSnapshot) (e : StoneCategory) : ℚ :=
  match e.cost_per_stone with
  | some c => c
  | none => (findStoneCost r.stonePrices e.stone_type e.setting_style e.size_category).getD 0

/-- Modelled from the spec: per-entry stone cost = count times cost-per-stone
(spec section 4.2). -/
def stoneEntryCost (r : RateSnapshot) (e : StoneCategory) : ℚ :=
  e.count.getD 0 * stoneUnitCost r e

/-- Modelled from the spec: one findings line item's cost contribution. -/
def findingCost (f : Finding) : ℚ := f.cost.getD 0

/-- Modelled from the spec: the non-metal sections of the result
(spec section 4.2): stones, CAD, manufacturing, finishing, findings, each
a cost and cost times (1 + markup/100). -/
def mkSections (q : QuoteRequest) (r : RateSnapshot) (metal : MetalSection) : Sections :=
  let stonesCost := (q.stone_categories.map (stoneEntryCost r)).sum
  let cadCost := q.cad_hours.getD 0 * q.cad_base_rate.getD 0
      + (if q.include_rendering_cost then q.cad_rendering_cost.getD 0 else 0)
      + (if q.include_technical_cost then q.cad_technical_cost.getD 0 else 0)
  let mfgCost := q.manufacturing_hours.getD 0 * q.manufacturing_base_rate.getD 0
  let finCost := q.finishing_cost.getD 0
      + (if q.include_plating_cost then q.plating_cost.getD 0 else 0)
  let fndCost := (q.findings.map findingCost).sum
  { metal := metal
    stones := ⟨stonesCost, stonesCost * (1 + q.stone_markup.getD 0 / 100)⟩
    cad := ⟨cadCost, cadCost * (1 + q.cad_markup.getD 0 / 100)⟩
    manufacturing := ⟨mfgCost, mfgCost * (1 + q.manufacturing_markup.getD 0 / 100)⟩
    finishing := ⟨finCost, finCost * (1 + q.finishing_markup.getD 0 / 100)⟩
    findings := ⟨fndCost, fndCost * (1 + q.findings_markup.getD 0 / 100)⟩ }

/-- Modelled from the spec: aggregation (spec section 4.2):
subtotalCost = sum of section costs, totalPrice = sum of section prices,
overhead = 0, profit = totalPrice - subtotalCost,
margin = profit / totalPrice times 100 when totalPrice is positive, else 0. -/
def mkTotals (s : Sections) : Totals :=
  let subtotalCost := s.metal.cost + s.stones.cost + s.cad.cost
      + s.manufacturing.cost + s.finishing.cost + s.findings.cost
  let totalPrice := s.metal.price + s.stones.price + s.cad.price
      + s.manufacturing.price + s.finishing.price + s.findings.price
  let profit := totalPrice - subtotalCost
  { subtotalCost := subtotalCost
    overhead := 0
    profit := profit
    totalPrice := totalPrice
    margin := if 0 < totalPrice then profit / totalPrice * 100 else 0 }

/-- Modelled from the spec: assembles the full result from the resolved
metal section. -/
def mkResult (q : QuoteRequest) (r : RateSnapshot) (m : MetalSection) : CalculationResult :=
  let s := mkSections q r m
  { sections := s, totals := mkTotals s }

/-- Modelled from the spec: `calculateQuote` of the missing
`services/calculationService.js` — the pure quote calculation engine
(spec sections 4.2, 6, 7).  The only failure is the unresolvable-metal
validation failure, carried as `Except.error` with the offending
metal-type key; everything else resolves internally. -/
def calculateQuote (q : QuoteRequest) (r : RateSnapshot) : Except String CalculationResult :=
  match metalPart q r with
  | Except.error t => Except.error t
  | Except.ok m => Except.ok (mkResult q r m)

/-- The metal-type keys whose spot price the engine must resolve for this
request: the single metal type in single-metal mode, and the metal types
of the variations with `enabled` not `false` in collection mode. -/
def variationKeys (vs : List DesignVariation) : List String :=
  (vs.filter (fun v => !(v.enabled == some false))).filterMap (fun v => v.metal_type)

/-- The metal-type keys that must resolve for the whole request (spec
sections 4.2 and 7: the only failure kind is an unresolvable metal rate). -/
def activeMetalKeys (q : QuoteRequest) : List String :=
  if q.design_variations.isEmpty then q.metal_type.toList
  else variationKeys q.design_variations

/-- Numeric range contract of one design variation (spec sections 3 and 7:
weights, percentages are nonnegative; validation is the caller's duty). -/
def DesignVariation.WF (v : DesignVariation) : Prop :=
  0 ≤ v.metal_weight.getD 0 ∧ 0 ≤ v.metal_wastage.getD 10 ∧ 0 ≤ v.metal_markup.getD 0

/-- Numeric range contract of one stone entry (count and override cost
nonnegative). -/
def StoneCategory.WF (e : StoneCategory) : Prop :=
  0 ≤ e.count.getD 0 ∧ 0 ≤ e.cost_per_stone.getD 0

/-- Numeric range contract of one findings line item. -/
def Finding.WF (f : Finding) : Prop := 0 ≤ f.cost.getD 0

/-- Numeric range contract of a whole quote request (spec section 3: all
quantities and percentages are nonnegative; the calling layer validates
ranges before invoking the engine, spec section 7). -/
def QuoteRequest.WellFormed (q : QuoteRequest) : Prop :=
  0 ≤ q.metal_weight.getD 0 ∧ 0 ≤ q.metal_wastage.getD 10 ∧ 0 ≤ q.metal_markup.getD 0 ∧
  (∀ v ∈ q.design_variations, v.WF) ∧
  (∀ e ∈ q.stone_categories, e.WF) ∧ 0 ≤ q.stone_markup.getD 0 ∧
  0 ≤ q.cad_hours.getD 0 ∧ 0 ≤ q.cad_base_rate.getD 0 ∧
  0 ≤ q.cad_rendering_cost.getD 0 ∧ 0 ≤ q.cad_technical_cost.getD 0 ∧
  0 ≤ q.cad_markup.getD 0 ∧
  0 ≤ q.manufacturing_hours.getD 0 ∧ 0 ≤ q.manufacturing_base_rate.getD 0 ∧
  0 ≤ q.manufacturing_markup.getD 0 ∧
  0 ≤ q.finishing_cost.getD 0 ∧ 0 ≤ q.plating_cost.getD 0 ∧
  0 ≤ q.finishing_markup.getD 0 ∧
  (∀ f ∈ q.findings, f.WF) ∧ 0 ≤ q.findings_markup.getD 0

/-- Nonnegativity of the rate snapshot (spot prices and setting costs are
prices; the seeded reference data in `src/db/seed.sql` is nonnegative). -/
def RateSnapshot.NonNeg (r : RateSnapshot) : Prop :=
  (∀ p ∈ r.metalPrices, 0 ≤ p.2) ∧ (∀ s ∈ r.stonePrices, 0 ≤ s.cost)

/-- The columns of the quotes row relevant to spot-price/total persistence. -/
structure QuoteRow where
  metal_type : Option String
  metal_weight : Option ℚ
  metal_spot_price : ℚ
  metal_wastage : Option ℚ
  metal_markup : Option ℚ
  design_variations : List DesignVariation
  subtotal : ℚ
  total : ℚ
  status : String
deriving DecidableEq, Inhabited

/-- Embedded from `src/routes/quotes.js` POST handler: the INSERT takes
`metal_spot_price` from `calculated.sections.metal.spotPrice` (the
validated price), and `subtotal`/`total` from the freshly computed
`calculated.totals`; the other columns come from the request body. -/
def insertedRow (body : QuoteRequest) (calculated : CalculationResult) : QuoteRow :=
  { metal_type := body.metal_type
    metal_weight := body.metal_weight
    metal_spot_price := calculated.sections.metal.spotPrice
    metal_wastage := body.metal_wastage
    metal_markup := body.metal_markup
    design_variations := body.design_variations
    subtotal := calculated.totals.subtotalCost
    total := calculated.totals.totalPrice
    status := "draft" }

/-- Embedded from `src/routes/quotes.js` POST handler: fetch rates,
calculate, then insert the computed totals and validated spot price. -/
def createQuote (body : QuoteRequest) (rates : RateSnapshot) : Except String QuoteRow :=
  match calculateQuote body rates with
  | Except.error t => Except.error t
  | Except.ok c => Except.ok (insertedRow body c)

/-- Embedded from `src/routes/quotes.js` PUT handler: the update data
spreads the request body and then overwrites `subtotal`, `total` and
`metal_spot_price` with the freshly calculated values, so those three
columns are always written from the calculation. -/
def mergedUpdateData (body : QuoteRequest) (c : CalculationResult) : QuoteRequest :=
  { body with
      subtotal := some c.totals.subtotalCost
      total := some c.totals.totalPrice
      metal_spot_price := some c.sections.metal.spotPrice }

/-- Embedded from `src/routes/quotes.js` PUT handler: fetch rates,
calculate, then persist the merged update data. -/
def updateQuote (body : QuoteRequest) (rates : RateSnapshot) : Except String QuoteRequest :=
  match calculateQuote body rates with
  | Except.error t => Except.error t
  | Except.ok c => Except.ok (mergedUpdateData body c)

/-- The seeded metal reference prices of `src/db/seed.sql`. -/
def seedMetalPrices : List (String × ℚ) :=
  [("18ct_yellow_gold", 850), ("18ct_white_gold", 850), ("18ct_rose_gold", 850),
   ("14ct_yellow_gold", 650), ("14ct_white_gold", 650), ("14ct_rose_gold", 650),
   ("9ct_yellow_gold", 450), ("9ct_white_gold", 450), ("9ct_rose_gold", 450),
   ("platinum_950", 1200), ("platinum_900", 1150), ("platinum_850", 1100),
   ("sterling_silver", 12)]

/-- The end-to-end example request of spec section 8: sterling silver,
20 g, wastage 10, markup 5, all other sections empty. -/
def ex5req : QuoteRequest :=
  { metal_type := some "sterling_silver", metal_weight := some 20,
    metal_wastage := some 10, metal_markup := some 5 }

/-- Snapshot holding the seeded metal prices (sterling silver at 12). -/
def ex5rates : RateSnapshot := { metalPrices := seedMetalPrices }

/-- The expected result of the end-to-end example: metal cost 264,
metal price 277.20, subtotal 264, total 277.20, margin 100/21 (about 4.76). -/
def ex5res : CalculationResult :=
  { sections :=
      { metal := ⟨264, 277.2, 12⟩
        stones := ⟨0, 0⟩
        cad := ⟨0, 0⟩
        manufacturing := ⟨0, 0⟩
        finishing := ⟨0, 0⟩
        findings := ⟨0, 0⟩ }
    totals := ⟨264, 0, 13.2, 277.2, 100 / 21⟩ }

/-- The collection-mode example request of spec section 8: two enabled
variations (5 g at wastage 10 markup 0, and 3 g at wastage 0 markup 20)
plus a disabled third variation; the single-metal markup field is 0. -/
def c6req : QuoteRequest :=
  { metal_markup := some 0,
    design_variations :=
      [ { metal_type := some "18ct_yellow_gold", metal_weight := some 5,
          metal_wastage := some 10, metal_markup := some 0 },
        { enabled := some true, metal_type := some "18ct_yellow_gold", metal_weight := some 3,
          metal_wastage := some 0, metal_markup := some 20 },
        { enabled := some false, metal_type := some "18ct_yellow_gold", metal_weight := some 99,
          metal_wastage := some 10, metal_markup := some 10 } ] }

/-- Snapshot with 18ct yellow gold at the seeded spot price 850. -/
def c6rates : RateSnapshot := { metalPrices := [("18ct_yellow_gold", 850)] }

/-- The expected result of the collection-mode example: metal cost
4675 + 2550 = 7225 and metal price 4675 + 3060 = 7735; the disabled
variation contributes 0. -/
def c6res : CalculationResult :=
  { sections :=
      { metal := ⟨7225, 7735, 0⟩
        stones := ⟨0, 0⟩
        cad := ⟨0, 0⟩
        manufacturing := ⟨0, 0⟩
        finishing := ⟨0, 0⟩
        findings := ⟨0, 0⟩ }
    totals := ⟨7225, 0, 510, 7735, 600 / 91⟩ }

/-- A request naming a metal type absent from every snapshot used below. -/
def unbReq : QuoteRequest := { metal_type := some "unobtainium" }

/-- The all-defaults request: no metal, no stones, no CAD, no
manufacturing, no finishing, no findings. -/
def emptyReq : QuoteRequest := {}

/-- The empty rate snapshot. -/
def emptyRates : RateSnapshot := {}

/-- The all-zero result the empty request must produce (margin 0, no
division by zero). -/
def zeroRes : CalculationResult :=
  { sections :=
      { metal := ⟨0, 0, 0⟩
        stones := ⟨0, 0⟩
        cad := ⟨0, 0⟩
        manufacturing := ⟨0, 0⟩
        finishing := ⟨0, 0⟩
        findings := ⟨0, 0⟩ }
    totals := ⟨0, 0, 0, 0, 0⟩ }

/-- A stones-only request: an entry with an override cost, an entry
resolved from the snapshot, and an entry absent from the snapshot with no
override; stone markup 10. -/
def c7req : QuoteRequest :=
  { stone_markup := some 10,
    stone_categories :=
      [ { stone_type := "diamond", setting_style := "claw", size_category := "small",
          count := some 2, cost_per_stone := some 30 },
        { stone_type := "ruby", setting_style := "bezel", size_category := "medium",
          count := some 3 },
        { stone_type := "opal", setting_style := "pave", size_category := "large",
          count := some 4 } ] }

/-- Snapshot holding a single stone rate: ruby, bezel, medium at 50. -/
def c7rates : RateSnapshot :=
  { stonePrices := [⟨"ruby", "bezel", "medium", 50⟩] }

/-- The expected stones-only result: entry costs 60, 150 and 0 (absent
triple, no override), section cost 210, price 231. -/
def c7res : CalculationResult :=
  { sections :=
      { metal := ⟨0, 0, 0⟩
        stones := ⟨210, 231⟩
        cad := ⟨0, 0⟩
        manufacturing := ⟨0, 0⟩
        finishing := ⟨0, 0⟩
        findings := ⟨0, 0⟩ }
    totals := ⟨210, 0, 21, 231, 100 / 11⟩ }

/-- The sterling-silver example body with a forged caller-supplied spot
price and forged subtotal/total fields. -/
def c10body : QuoteRequest :=
  { ex5req with metal_spot_price := some 1, subtotal := some 999, total := some 999 }

/-- Success of the engine decomposes into success of the metal resolution
plus the pure assembly of the result. -/
lemma calculateQuote_ok_iff (q : QuoteRequest) (r : RateSnapshot) (res : CalculationResult) :
    calculateQuote q r = Except.ok res ↔
      ∃ m, metalPart q r = Except.ok m ∧ res = mkResult q r m := by
  unfold calculateQuote
  cases h : metalPart q r with
  | error t => simp
  | ok m =>
    simp only [Except.ok.injEq]
    constructor
    · intro he; exact ⟨m, rfl, he.symm⟩
    · rintro ⟨m2, hm2, hres⟩
      cases hm2
      exact hres.symm

/-- The engine fails exactly when the metal resolution fails, with the
same carried key. -/
lemma calculateQuote_error_iff (q : QuoteRequest) (r : RateSnapshot) (t : String) :
    calculateQuote q r = Except.error t ↔ metalPart q r = Except.error t := by
  unfold calculateQuote
  cases h : metalPart q r <;> simp

/-- A first-match price lookup hit is a member of the price list. -/
lemma findPrice_mem (l : List (String × ℚ)) (t : String) (sp : ℚ)
    (h : findPrice l t = some sp) : (t, sp) ∈ l := by
  induction l with
  | nil => simp [findPrice] at h
  | cons p rest ih =>
    by_cases hp : p.1 = t
    · simp only [findPrice, hp, if_pos rfl] at h
      cases h
      have hpt : p = (t, p.2) := by
        rw [← hp]
      rw [← hpt]
      exact List.mem_cons_self _ _
    · simp only [findPrice, if_neg hp] at h
      exact List.mem_cons_of_mem _ (ih h)

/-- Looked-up spot prices from a nonnegative snapshot are nonnegative. -/
lemma findPrice_nonneg (l : List (String × ℚ)) (t : String) (sp : ℚ)
    (hl : ∀ p ∈ l, 0 ≤ p.2) (h : findPrice l t = some sp) : 0 ≤ sp :=
  hl (t, sp) (findPrice_mem l t sp h)

/-- A first-match stone-rate lookup hit is a member of the rate rows. -/
lemma findStoneCost_mem (l : List StoneRate) (t st sz : String) (c : ℚ)
    (h : findStoneCost l t st sz = some c) : ∃ s ∈ l, s.cost = c := by
  induction l with
  | nil => simp [findStoneCost] at h
  | cons s rest ih =>
    by_cases hs : s.stoneType = t ∧ s.settingStyle = st ∧ s.sizeCategory = sz
    · simp only [findStoneCost, if_pos hs] at h
      cases h
      exact ⟨s, List.mem_cons_self s rest, rfl⟩
    · simp only [findStoneCost, if_neg hs] at h
      obtain ⟨s2, hs2, hc⟩ := ih h
      exact ⟨s2, List.mem_cons_of_mem _ hs2, hc⟩

/-- Looked-up setting costs from a nonnegative snapshot are nonnegative. -/
lemma findStoneCost_nonneg (l : List StoneRate) (t st sz : String) (c : ℚ)
    (hl : ∀ s ∈ l, 0 ≤ s.cost) (h : findStoneCost l t st sz = some c) : 0 ≤ c := by
  obtain ⟨s, hs, hc⟩ := findStoneCost_mem l t st sz c h
  exact hc ▸ hl s hs

/-- Applying a nonnegative percentage markup cannot lower a nonnegative
cost. -/
lemma le_markup_price (c m : ℚ) (hc : 0 ≤ c) (hm : 0 ≤ m) : c ≤ c * (1 + m / 100) := by
  nlinarith [mul_nonneg hc (div_nonneg hm (by norm_num : (0:ℚ) ≤ 100))]

/-- Metal resolution fails exactly on a named metal type whose key the
snapshot lacks, and carries that key. -/
lemma resolveMetal_error_iff (r : RateSnapshot) (mt : Option String) (w wa mk : ℚ) (t : String) :
    resolveMetal r mt w wa mk = Except.error t ↔
      mt = some t ∧ findPrice r.metalPrices t = none := by
  cases mt with
  | none => simp [resolveMetal]
  | some s =>
    cases h : findPrice r.metalPrices s with
    | none =>
      constructor
      · intro he
        simp only [resolveMetal, h] at he
        cases he
        exact ⟨rfl, h⟩
      · rintro ⟨hst, _⟩
        cases hst
        simp [resolveMetal, h]
    | some sp =>
      constructor
      · intro he
        simp [resolveMetal, h] at he
      · rintro ⟨hst, hf⟩
        cases hst
        rw [h] at hf
        cases hf

/-- Metal resolution succeeds exactly when every named metal type is in
the snapshot. -/
lemma resolveMetal_isOk_iff (r : RateSnapshot) (mt : Option String) (w wa mk : ℚ) :
    (∃ m, resolveMetal r mt w wa mk = Except.ok m) ↔
      ∀ t, mt = some t → (findPrice r.metalPrices t).isSome = true := by
  cases mt with
  | none => simp [resolveMetal]
  | some s =>
    cases h : findPrice r.metalPrices s with
    | none => simp [resolveMetal, h]
    | some sp => simp [resolveMetal, h]

/-- The price produced by metal resolution is the cost with the metal
markup applied. -/
lemma resolveMetal_price (r : RateSnapshot) (mt : Option String) (w wa mk : ℚ)
    (m : MetalSection) (h : resolveMetal r mt w wa mk = Except.ok m) :
    m.price = m.cost * (1 + mk / 100) := by
  cases mt with
  | none =>
    simp only [resolveMetal] at h
    cases h
    simp
  | some s =>
    cases hf : findPrice r.metalPrices s with
    | none => simp [resolveMetal, hf] at h
    | some sp =>
      simp only [resolveMetal, hf] at h
      cases h
      rfl

/-- With nonnegative inputs and snapshot, a resolved metal section has
nonnegative cost not exceeding its price. -/
lemma resolveMetal_nonneg (r : RateSnapshot) (mt : Option String) (w wa mk : ℚ)
    (m : MetalSection) (hw : 0 ≤ w) (hwa : 0 ≤ wa) (hmk : 0 ≤ mk)
    (hr : ∀ p ∈ r.metalPrices, 0 ≤ p.2)
    (h : resolveMetal r mt w wa mk = Except.ok m) :
    0 ≤ m.cost ∧ m.cost ≤ m.price := by
  cases mt with
  | none =>
    simp only [resolveMetal] at h
    cases h
    simp
  | some s =>
    cases hf : findPrice r.metalPrices s with
    | none => simp [resolveMetal, hf] at h
    | some sp =>
      simp only [resolveMetal, hf] at h
      cases h
      have hsp : 0 ≤ sp := findPrice_nonneg _ _ _ hr hf
      have hcost : 0 ≤ w * sp * (1 + wa / 100) := by
        have h1 : 0 ≤ w * sp := mul_nonneg hw hsp
        have h2 : (0:ℚ) ≤ 1 + wa / 100 := by
          have := div_nonneg hwa (by norm_num : (0:ℚ) ≤ 100)
          linarith
        exact mul_nonneg h1 h2
      exact ⟨hcost, le_markup_price _ _ hcost hmk⟩

/-- A variation's metal contribution fails exactly on an included
(not-disabled) variation naming a metal type the snapshot lacks. -/
lemma variationMetal_error_iff (r : RateSnapshot) (v : DesignVariation) (t : String) :
    variationMetal r v = Except.error t ↔
      ¬ v.enabled = some false ∧ v.metal_type = some t ∧
        findPrice r.metalPrices t = none := by
  unfold variationMetal
  by_cases he : v.enabled = some false
  · simp [he]
  · simp [he, resolveMetal_error_iff]

/-- A variation's metal contribution succeeds exactly when it is disabled
or its named metal type is in the snapshot. -/
lemma variationMetal_isOk_iff (r : RateSnapshot) (v : DesignVariation) :
    (∃ m, variationMetal r v = Except.ok m) ↔
      (v.enabled = some false ∨
        ∀ t, v.metal_type = some t → (findPrice r.metalPrices t).isSome = true) := by
  unfold variationMetal
  by_cases he : v.enabled = some false
  · simp [he]
  · simp [he, resolveMetal_isOk_iff]

/-- Every variation's resolved price is its resolved cost with the
variation's own markup applied (a disabled variation is zero on both
sides). -/
lemma variationMetal_price (r : RateSnapshot) (v : DesignVariation) (m : MetalSection)
    (h : variationMetal r v = Except.ok m) :
    m.price = m.cost * (1 + v.metal_markup.getD 0 / 100) := by
  unfold variationMetal at h
  by_cases he : v.enabled = some false
  · rw [if_pos he] at h
    cases h
    simp
  · rw [if_neg he] at h
    exact resolveMetal_price _ _ _ _ _ _ h

/-- A disabled variation contributes zero cost and zero price. -/
lemma variationMetal_disabled (r : RateSnapshot) (v : DesignVariation)
    (he : v.enabled = some false) : variationMetal r v = Except.ok ⟨0, 0, 0⟩ := by
  unfold variationMetal
  rw [if_pos he]

/-- An included variation is resolved exactly as single-metal mode with
its own fields and defaults. -/
lemma variationMetal_enabled (r : RateSnapshot) (v : DesignVariation)
    (he : ¬ v.enabled = some false) :
    variationMetal r v = resolveMetal r v.metal_type (v.metal_weight.getD 0)
      (v.metal_wastage.getD 10) (v.metal_markup.getD 0) := by
  unfold variationMetal
  rw [if_neg he]

/-- With a well-formed variation and nonnegative snapshot, the variation's
contribution has nonnegative cost not exceeding its price. -/
lemma variationMetal_nonneg (r : RateSnapshot) (v : DesignVariation) (m : MetalSection)
    (hv : v.WF) (hr : ∀ p ∈ r.metalPrices, 0 ≤ p.2)
    (h : variationMetal r v = Except.ok m) : 0 ≤ m.cost ∧ m.cost ≤ m.price := by
  unfold variationMetal at h
  by_cases he : v.enabled = some false
  · rw [if_pos he] at h
    cases h
    simp
  · rw [if_neg he] at h
    exact resolveMetal_nonneg _ _ _ _ _ _ hv.1 hv.2.1 hv.2.2 hr h

/-- Membership in the resolvable keys of a variation list. -/
lemma mem_variationKeys (vs : List DesignVariation) (t : String) :
    t ∈ variationKeys vs ↔
      ∃ v ∈ vs, ¬ v.enabled = some false ∧ v.metal_type = some t := by
  unfold variationKeys
  simp only [List.mem_filterMap, List.mem_filter, Bool.not_eq_true', beq_eq_false_iff_ne,
    ne_eq]
  constructor
  · rintro ⟨v, ⟨hv, hne⟩, hmt⟩
    exact ⟨v, hv, hne, hmt⟩
  · rintro ⟨v, hv, hne, hmt⟩
    exact ⟨v, ⟨hv, hne⟩, hmt⟩

/-- A collection-mode failure names an included variation's metal type
that the snapshot lacks. -/
lemma resolveVariations_error (r : RateSnapshot) :
    ∀ (vs : List DesignVariation) (t : String), resolveVariations r vs = Except.error t →
      t ∈ variationKeys vs ∧ findPrice r.metalPrices t = none := by
  intro vs
  induction vs with
  | nil =>
    intro t h
    simp [resolveVariations] at h
  | cons v vs ih =>
    intro t h
    unfold resolveVariations at h
    cases hv : variationMetal r v with
    | error s =>
      rw [hv] at h
      cases h
      obtain ⟨hne, hmt, hf⟩ := (variationMetal_error_iff r v t).mp hv
      exact ⟨(mem_variationKeys _ _).mpr ⟨v, List.mem_cons_self _ _, hne, hmt⟩, hf⟩
    | ok m =>
      rw [hv] at h
      cases hrec : resolveVariations r vs with
      | error s =>
        rw [hrec] at h
        cases h
        obtain ⟨hm, hf⟩ := ih t hrec
        refine ⟨?_, hf⟩
        rw [mem_variationKeys] at hm ⊢
        obtain ⟨v2, hv2, hrest⟩ := hm
        exact ⟨v2, List.mem_cons_of_mem _ hv2, hrest⟩
      | ok cp =>
        rw [hrec] at h
        cases h

/-- Collection-mode resolution succeeds exactly when every included
variation's metal type is in the snapshot. -/
lemma resolveVariations_isOk_iff (r : RateSnapshot) (vs : List DesignVariation) :
    (∃ cp, resolveVariations r vs = Except.ok cp) ↔
      ∀ t ∈ variationKeys vs, (findPrice r.metalPrices t).isSome = true := by
  induction vs with
  | nil =>
    simp [resolveVariations, variationKeys]
  | cons v vs ih =>
    constructor
    · rintro ⟨cp, h⟩ t ht
      unfold resolveVariations at h
      cases hv : variationMetal r v with
      | error s =>
        rw [hv] at h
        cases h
      | ok m =>
        rw [hv] at h
        cases hrec : resolveVariations r vs with
        | error s =>
          rw [hrec] at h
          cases h
        | ok cp2 =>
          rw [mem_variationKeys] at ht
          obtain ⟨v2, hv2, hne, hmt⟩ := ht
          rcases List.mem_cons.mp hv2 with rfl | hv2
          · rcases (variationMetal_isOk_iff r v2).mp ⟨m, hv⟩ with he | hall
            · exact absurd he hne
            · exact hall t hmt
          · exact (ih.mp ⟨cp2, hrec⟩) t ((mem_variationKeys _ _).mpr ⟨v2, hv2, hne, hmt⟩)
    · intro hall
      have h1 : ∃ m, variationMetal r v = Except.ok m := by
        rw [variationMetal_isOk_iff]
        by_cases he : v.enabled = some false
        · exact Or.inl he
        · refine Or.inr fun t hmt => ?_
          exact hall t ((mem_variationKeys _ _).mpr ⟨v, List.mem_cons_self _ _, he, hmt⟩)
      have h2 : ∃ cp, resolveVariations r vs = Except.ok cp := by
        rw [ih]
        intro t ht
        rw [mem_variationKeys] at ht
        obtain ⟨v2, hv2, hrest⟩ := ht
        exact hall t ((mem_variationKeys _ _).mpr ⟨v2, List.mem_cons_of_mem _ hv2, hrest⟩)
      obtain ⟨m, hm⟩ := h1
      obtain ⟨cp, hcp⟩ := h2
      refine ⟨(m.cost + cp.1, m.price + cp.2), ?_⟩
      unfold resolveVariations
      rw [hm, hcp]

/-- A successful collection-mode resolution sums the per-variation costs
and the per-variation prices, and every variation resolved. -/
lemma resolveVariations_ok_sum (r : RateSnapshot) :
    ∀ (vs : List DesignVariation) (cp : ℚ × ℚ), resolveVariations r vs = Except.ok cp →
      (∀ v ∈ vs, ∃ m, variationMetal r v = Except.ok m) ∧
      cp.1 = (vs.map (fun v => ((variationMetal r v).toOption.getD default).cost)).sum ∧
      cp.2 = (vs.map (fun v => ((variationMetal r v).toOption.getD default).price)).sum := by
  intro vs
  induction vs with
  | nil =>
    intro cp h
    simp only [resolveVariations, Except.ok.injEq] at h
    subst h
    simp
  | cons v vs ih =>
    intro cp h
    unfold resolveVariations at h
    cases hv : variationMetal r v with
    | error s =>
      rw [hv] at h
      cases h
    | ok m =>
      rw [hv] at h
      cases hrec : resolveVariations r vs with
      | error s =>
        rw [hrec] at h
        cases h
      | ok cp2 =>
        rw [hrec] at h
        cases h
        obtain ⟨hall, hc, hp⟩ := ih cp2 hrec
        refine ⟨?_, ?_, ?_⟩
        · intro v2 hv2
          rcases List.mem_cons.mp hv2 with rfl | hv2
          · exact ⟨m, hv⟩
          · exact hall v2 hv2
        · simp [hv, hc, Except.toOption]
        · simp [hv, hp, Except.toOption]

/-- With well-formed variations and a nonnegative snapshot, the summed
collection cost is nonnegative and does not exceed the summed price. -/
lemma resolveVariations_nonneg (r : RateSnapshot)
    (hr : ∀ p ∈ r.metalPrices, 0 ≤ p.2) :
    ∀ (vs : List DesignVariation) (cp : ℚ × ℚ), (∀ v ∈ vs, v.WF) →
      resolveVariations r vs = Except.ok cp → 0 ≤ cp.1 ∧ cp.1 ≤ cp.2 := by
  intro vs
  induction vs with
  | nil =>
    intro cp _ h
    simp only [resolveVariations, Except.ok.injEq] at h
    subst h
    simp
  | cons v vs ih =>
    intro cp hwf h
    unfold resolveVariations at h
    cases hv : variationMetal r v with
    | error s =>
      rw [hv] at h
      cases h
    | ok m =>
      rw [hv] at h
      cases hrec : resolveVariations r vs with
      | error s =>
        rw [hrec] at h
        cases h
      | ok cp2 =>
        rw [hrec] at h
        cases h
        have h1 := variationMetal_nonneg r v m (hwf v (List.mem_cons_self _ _)) hr hv
        have h2 := ih cp2 (fun v2 hv2 => hwf v2 (List.mem_cons_of_mem _ hv2)) hrec
        constructor
        · exact add_nonneg h1.1 h2.1
        · exact add_le_add h1.2 h2.2

/-- The metal resolution of a whole request succeeds exactly when every
active metal-type key is in the snapshot. -/
lemma metalPart_isOk_iff (q : QuoteRequest) (r : RateSnapshot) :
    (∃ m, metalPart q r = Except.ok m) ↔
      ∀ t ∈ activeMetalKeys q, (findPrice r.metalPrices t).isSome = true := by
  unfold metalPart activeMetalKeys
  by_cases hv : q.design_variations.isEmpty
  · rw [if_pos hv, if_pos hv, resolveMetal_isOk_iff]
    simp [Option.mem_toList, Option.mem_def]
  · rw [if_neg hv, if_neg hv]
    unfold collectionPart
    cases hrec : resolveVariations r q.design_variations with
    | error t =>
      constructor
      · rintro ⟨m, hm⟩
        cases hm
      · intro hall
        obtain ⟨hm, hf⟩ := resolveVariations_error r _ t hrec
        have := hall t hm
        rw [hf] at this
        cases this
    | ok cp =>
      constructor
      · intro _
        exact (resolveVariations_isOk_iff r _).mp ⟨cp, hrec⟩
      · intro _
        exact ⟨⟨cp.1, cp.2, 0⟩, rfl⟩

/-- A failing metal resolution carries an active metal-type key that the
snapshot lacks. -/
lemma metalPart_error_key (q : QuoteRequest) (r : RateSnapshot) (t : String)
    (h : metalPart q r = Except.error t) :
    t ∈ activeMetalKeys q ∧ findPrice r.metalPrices t = none := by
  unfold metalPart at h
  unfold activeMetalKeys
  by_cases hv : q.design_variations.isEmpty
  · rw [if_pos hv] at h
    rw [if_pos hv]
    obtain ⟨hmt, hf⟩ := (resolveMetal_error_iff _ _ _ _ _ _).mp h
    exact ⟨by simp [Option.mem_toList, Option.mem_def, hmt], hf⟩
  · rw [if_neg hv] at h
    rw [if_neg hv]
    unfold collectionPart at h
    cases hrec : resolveVariations r q.design_variations with
    | error s =>
      rw [hrec] at h
      cases h
      exact resolveVariations_error r _ t hrec
    | ok cp =>
      rw [hrec] at h
      cases h

/-- In single-metal mode with a resolved metal type, the metal section is
the spec's formula: cost = weight x spot x (1 + wastage/100),
price = cost x (1 + markup/100), spot from the snapshot. -/
lemma metalPart_single_some (q : QuoteRequest) (r : RateSnapshot) (t : String) (sp : ℚ)
    (hv : q.design_variations = []) (hmt : q.metal_type = some t)
    (hsp : findPrice r.metalPrices t = some sp) :
    metalPart q r = Except.ok
      ⟨q.metal_weight.getD 0 * sp * (1 + q.metal_wastage.getD 10 / 100),
       q.metal_weight.getD 0 * sp * (1 + q.metal_wastage.getD 10 / 100) *
         (1 + q.metal_markup.getD 0 / 100), sp⟩ := by
  unfold metalPart
  simp [hv, resolveMetal, hmt, hsp]

/-- In single-metal mode with no metal type, the metal section is zero. -/
lemma metalPart_single_none (q : QuoteRequest) (r : RateSnapshot)
    (hv : q.design_variations = []) (hmt : q.metal_type = none) :
    metalPart q r = Except.ok ⟨0, 0, 0⟩ := by
  unfold metalPart
  simp [hv, resolveMetal, hmt]

/-- In single-metal mode the resolved metal price is the cost with the
request's metal markup applied. -/
lemma metalPart_single_price (q : QuoteRequest) (r : RateSnapshot) (m : MetalSection)
    (hv : q.design_variations = []) (h : metalPart q r = Except.ok m) :
    m.price = m.cost * (1 + q.metal_markup.getD 0 / 100) := by
  unfold metalPart at h
  rw [hv] at h
  simp only [List.isEmpty_nil, if_pos] at h
  exact resolveMetal_price _ _ _ _ _ _ h

/-- In collection mode the resolved metal section sums the per-variation
costs and prices. -/
lemma metalPart_collection (q : QuoteRequest) (r : RateSnapshot) (m : MetalSection)
    (hv : ¬ q.design_variations.isEmpty) (h : metalPart q r = Except.ok m) :
    (∀ v ∈ q.design_variations, ∃ m2, variationMetal r v = Except.ok m2) ∧
    m.cost = (q.design_variations.map
      (fun v => ((variationMetal r v).toOption.getD default).cost)).sum ∧
    m.price = (q.design_variations.map
      (fun v => ((variationMetal r v).toOption.getD default).price)).sum := by
  unfold metalPart at h
  rw [if_neg hv] at h
  unfold collectionPart at h
  cases hrec : resolveVariations r q.design_variations with
  | error s =>
    rw [hrec] at h
    cases h
  | ok cp =>
    rw [hrec] at h
    cases h
    exact resolveVariations_ok_sum r _ cp hrec

/-- With a well-formed request and nonnegative snapshot, the resolved
metal section has nonnegative cost not exceeding its price. -/
lemma metalPart_nonneg (q : QuoteRequest) (r : RateSnapshot) (m : MetalSection)
    (hwf : q.WellFormed) (hr : r.NonNeg) (h : metalPart q r = Except.ok m) :
    0 ≤ m.cost ∧ m.cost ≤ m.price := by
  unfold metalPart at h
  by_cases hv : q.design_variations.isEmpty
  · rw [if_pos hv] at h
    exact resolveMetal_nonneg _ _ _ _ _ _ hwf.1 hwf.2.1 hwf.2.2.1 hr.1 h
  · rw [if_neg hv] at h
    unfold collectionPart at h
    cases hrec : resolveVariations r q.design_variations with
    | error s =>
      rw [hrec] at h
      cases h
    | ok cp =>
      rw [hrec] at h
      cases h
      exact resolveVariations_nonneg r hr.1 _ cp hwf.2.2.2.1 hrec

@[simp] lemma mkSections_metal (q : QuoteRequest) (r : RateSnapshot) (m : MetalSection) :
    (mkSections q r m).metal = m := rfl

@[simp] lemma mkSections_stones_cost (q : QuoteRequest) (r : RateSnapshot) (m : MetalSection) :
    (mkSections q r m).stones.cost = (q.stone_categories.map (stoneEntryCost r)).sum := rfl

@[simp] lemma mkSections_stones_price (q : QuoteRequest) (r : RateSnapshot) (m : MetalSection) :
    (mkSections q r m).stones.price =
      (q.stone_categories.map (stoneEntryCost r)).sum * (1 + q.stone_markup.getD 0 / 100) := rfl

@[simp] lemma mkSections_cad_cost (q : QuoteRequest) (r : RateSnapshot) (m : MetalSection) :
    (mkSections q r m).cad.cost =
      q.cad_hours.getD 0 * q.cad_base_rate.getD 0
        + (if q.include_rendering_cost then q.cad_rendering_cost.getD 0 else 0)
        + (if q.include_technical_cost then q.cad_technical_cost.getD 0 else 0) := rfl

@[simp] lemma mkSections_cad_price (q : QuoteRequest) (r : RateSnapshot) (m : MetalSection) :
    (mkSections q r m).cad.price =
      (mkSections q r m).cad.cost * (1 + q.cad_markup.getD 0 / 100) := rfl

@[simp] lemma mkSections_manufacturing_cost (q : QuoteRequest) (r : RateSnapshot)
    (m : MetalSection) :
    (mkSections q r m).manufacturing.cost =
      q.manufacturing_hours.getD 0 * q.manufacturing_base_rate.getD 0 := rfl

@[simp] lemma mkSections_manufacturing_price (q : QuoteRequest) (r : RateSnapshot)
    (m : MetalSection) :
    (mkSections q r m).manufacturing.price =
      (mkSections q r m).manufacturing.cost * (1 + q.manufacturing_markup.getD 0 / 100) := rfl

@[simp] lemma mkSections_finishing_cost (q : QuoteRequest) (r : RateSnapshot)
    (m : MetalSection) :
    (mkSections q r m).finishing.cost =
      q.finishing_cost.getD 0
        + (if q.include_plating_cost then q.plating_cost.getD 0 else 0) := rfl

@[simp] lemma mkSections_finishing_price (q : QuoteRequest) (r : RateSnapshot)
    (m : MetalSection) :
    (mkSections q r m).finishing.price =
      (mkSections q r m).finishing.cost * (1 + q.finishing_markup.getD 0 / 100) := rfl

@[simp] lemma mkSections_findings_cost (q : QuoteRequest) (r : RateSnapshot)
    (m : MetalSection) :
    (mkSections q r m).findings.cost = (q.findings.map findingCost).sum := rfl

@[simp] lemma mkSections_findings_price (q : QuoteRequest) (r : RateSnapshot)
    (m : MetalSection) :
    (mkSections q r m).findings.price =
      (mkSections q r m).findings.cost * (1 + q.findings_markup.getD 0 / 100) := rfl

@[simp] lemma mkResult_sections (q : QuoteRequest) (r : RateSnapshot) (m : MetalSection) :
    (mkResult q r m).sections = mkSections q r m := rfl

@[simp] lemma mkResult_totals (q : QuoteRequest) (r : RateSnapshot) (m : MetalSection) :
    (mkResult q r m).totals = mkTotals (mkSections q r m) := rfl

@[simp] lemma mkTotals_subtotalCost (s : Sections) :
    (mkTotals s).subtotalCost = s.metal.cost + s.stones.cost + s.cad.cost
      + s.manufacturing.cost + s.finishing.cost + s.findings.cost := rfl

@[simp] lemma mkTotals_totalPrice (s : Sections) :
    (mkTotals s).totalPrice = s.metal.price + s.stones.price + s.cad.price
      + s.manufacturing.price + s.finishing.price + s.findings.price := rfl

@[simp] lemma mkTotals_overhead (s : Sections) : (mkTotals s).overhead = 0 := rfl

lemma mkTotals_profit (s : Sections) :
    (mkTotals s).profit = (mkTotals s).totalPrice - (mkTotals s).subtotalCost := rfl

lemma mkTotals_margin (s : Sections) :
    (mkTotals s).margin = if 0 < (mkTotals s).totalPrice
      then (mkTotals s).profit / (mkTotals s).totalPrice * 100 else 0 := rfl

/-- With well-formed stone entries and a nonnegative snapshot, the stone
section cost is nonnegative. -/
lemma stonesCost_nonneg (q : QuoteRequest) (r : RateSnapshot)
    (hwf : ∀ e ∈ q.stone_categories, e.WF) (hr : ∀ s ∈ r.stonePrices, 0 ≤ s.cost) :
    0 ≤ (q.stone_categories.map (stoneEntryCost r)).sum := by
  apply List.sum_nonneg
  intro x hx
  rw [List.mem_map] at hx
  obtain ⟨e, he, rfl⟩ := hx
  unfold stoneEntryCost stoneUnitCost
  have hcount := (hwf e he).1
  cases hc : e.cost_per_stone with
  | some c =>
    have h2 := (hwf e he).2
    rw [hc] at h2
    exact mul_nonneg hcount (by simpa using h2)
  | none =>
    cases hs : findStoneCost r.stonePrices e.stone_type e.setting_style e.size_category with
    | none => simp
    | some c =>
      simp only [Option.getD_some]
      exact mul_nonneg hcount (findStoneCost_nonneg _ _ _ _ _ hr hs)

/-- With a well-formed request, a nonnegative snapshot and metal bounds,
every section of the assembled result has nonnegative cost not exceeding
its price. -/
lemma sections_bounds (q : QuoteRequest) (r : RateSnapshot) (m : MetalSection)
    (hwf : q.WellFormed) (hr : r.NonNeg) (hm : 0 ≤ m.cost ∧ m.cost ≤ m.price) :
    (0 ≤ (mkSections q r m).metal.cost ∧
      (mkSections q r m).metal.cost ≤ (mkSections q r m).metal.price) ∧
    (0 ≤ (mkSections q r m).stones.cost ∧
      (mkSections q r m).stones.cost ≤ (mkSections q r m).stones.price) ∧
    (0 ≤ (mkSections q r m).cad.cost ∧
      (mkSections q r m).cad.cost ≤ (mkSections q r m).cad.price) ∧
    (0 ≤ (mkSections q r m).manufacturing.cost ∧
      (mkSections q r m).manufacturing.cost ≤ (mkSections q r m).manufacturing.price) ∧
    (0 ≤ (mkSections q r m).finishing.cost ∧
      (mkSections q r m).finishing.cost ≤ (mkSections q r m).finishing.price) ∧
    (0 ≤ (mkSections q r m).findings.cost ∧
      (mkSections q r m).findings.cost ≤ (mkSections q r m).findings.price) := by
  obtain ⟨h1, h2, h3, hvar, hst, h6, h7, h8, h9, h10, h11, h12, h13, h14, h15, h16, h17,
    hfnd, h19⟩ := hwf
  have hstones : 0 ≤ (q.stone_categories.map (stoneEntryCost r)).sum :=
    stonesCost_nonneg q r hst hr.2
  have hcad : 0 ≤ q.cad_hours.getD 0 * q.cad_base_rate.getD 0
      + (if q.include_rendering_cost then q.cad_rendering_cost.getD 0 else 0)
      + (if q.include_technical_cost then q.cad_technical_cost.getD 0 else 0) := by
    apply add_nonneg
    apply add_nonneg
    · exact mul_nonneg h7 h8
    · split
      · exact h9
      · exact le_refl 0
    · split
      · exact h10
      · exact le_refl 0
  have hmfg : 0 ≤ q.manufacturing_hours.getD 0 * q.manufacturing_base_rate.getD 0 :=
    mul_nonneg h12 h13
  have hfin : 0 ≤ q.finishing_cost.getD 0
      + (if q.include_plating_cost then q.plating_cost.getD 0 else 0) := by
    apply add_nonneg h15
    split
    · exact h16
    · exact le_refl 0
  have hfnd2 : 0 ≤ (q.findings.map findingCost).sum := by
    apply List.sum_nonneg
    intro x hx
    rw [List.mem_map] at hx
    obtain ⟨f, hf, rfl⟩ := hx
    exact hfnd f hf
  refine ⟨⟨by simpa using hm.1, by simpa using hm.2⟩, ⟨by simpa using hstones, ?_⟩,
    ⟨by simpa using hcad, ?_⟩, ⟨by simpa using hmfg, ?_⟩, ⟨by simpa using hfin, ?_⟩,
    ⟨by simpa using hfnd2, ?_⟩⟩
  · simpa using le_markup_price _ _ hstones h6
  · simpa using le_markup_price _ _ hcad h11
  · simpa using le_markup_price _ _ hmfg h14
  · simpa using le_markup_price _ _ hfin h17
  · simpa using le_markup_price _ _ hfnd2 h19

/-- Claim C1: for every quote request and rate snapshot on which the
calculation succeeds (with the request and snapshot in their documented
nonnegative ranges), the returned totals satisfy the defining equations:
subtotalCost is the sum of the six section costs, totalPrice is the sum of
the six section prices and is never negative, overhead = 0,
profit = totalPrice - subtotalCost, and margin = profit/totalPrice x 100
when totalPrice > 0, else 0. -/
theorem spec_c1 (q : QuoteRequest) (r : RateSnapshot) (res : CalculationResult)
    (hwf : q.WellFormed) (hr : r.NonNeg)
    (hok : calculateQuote q r = Except.ok res) :
    res.totals.subtotalCost = res.sections.metal.cost + res.sections.stones.cost
      + res.sections.cad.cost + res.sections.manufacturing.cost
      + res.sections.finishing.cost + res.sections.findings.cost ∧
    res.totals.totalPrice = res.sections.metal.price + res.sections.stones.price
      + res.sections.cad.price + res.sections.manufacturing.price
      + res.sections.finishing.price + res.sections.findings.price ∧
    0 ≤ res.totals.totalPrice ∧
    res.totals.overhead = 0 ∧
    res.totals.profit = res.totals.totalPrice - res.totals.subtotalCost ∧
    res.totals.margin = (if 0 < res.totals.totalPrice
      then res.totals.profit / res.totals.totalPrice * 100 else 0) := by
  obtain ⟨m, hm, rfl⟩ := (calculateQuote_ok_iff q r res).mp hok
  have hmb := metalPart_nonneg q r m hwf hr hm
  have hb := sections_bounds q r m hwf hr hmb
  refine ⟨rfl, rfl, ?_, rfl, rfl, rfl⟩
  have p1 : 0 ≤ (mkSections q r m).metal.price := le_trans hb.1.1 hb.1.2
  have p2 : 0 ≤ (mkSections q r m).stones.price := le_trans hb.2.1.1 hb.2.1.2
  have p3 : 0 ≤ (mkSections q r m).cad.price := le_trans hb.2.2.1.1 hb.2.2.1.2
  have p4 : 0 ≤ (mkSections q r m).manufacturing.price :=
    le_trans hb.2.2.2.1.1 hb.2.2.2.1.2
  have p5 : 0 ≤ (mkSections q r m).finishing.price :=
    le_trans hb.2.2.2.2.1.1 hb.2.2.2.2.1.2
  have p6 : 0 ≤ (mkSections q r m).findings.price :=
    le_trans hb.2.2.2.2.2.1 hb.2.2.2.2.2.2
  have : (mkResult q r m).totals.totalPrice = (mkSections q r m).metal.price
      + (mkSections q r m).stones.price + (mkSections q r m).cad.price
      + (mkSections q r m).manufacturing.price + (mkSections q r m).finishing.price
      + (mkSections q r m).findings.price := rfl
  rw [this]
  linarith

/-- Claim C1 witness: the all-empty request on the empty snapshot is
well-formed, succeeds, and yields subtotal 0, total 0 and margin 0 with no
division by zero. -/
theorem spec_c1_witness :
    emptyReq.WellFormed ∧ emptyRates.NonNeg ∧
    calculateQuote emptyReq emptyRates = Except.ok zeroRes ∧
    zeroRes.totals.overhead = 0 ∧ 0 ≤ zeroRes.totals.totalPrice ∧
    zeroRes.totals.subtotalCost = 0 ∧ zeroRes.totals.totalPrice = 0 ∧
    zeroRes.totals.margin = 0 := by
  have hwf : emptyReq.WellFormed := by
    norm_num [QuoteRequest.WellFormed, emptyReq]
  have hr : emptyRates.NonNeg := by
    norm_num [RateSnapshot.NonNeg, emptyRates]
  have hok : calculateQuote emptyReq emptyRates = Except.ok zeroRes := by
    norm_num [calculateQuote, metalPart, resolveMetal, emptyReq, emptyRates, zeroRes,
      mkResult, mkSections, mkTotals, stoneEntryCost, findingCost]
  have happ := spec_c1 emptyReq emptyRates zeroRes hwf hr hok
  exact ⟨hwf, hr, hok, happ.2.2.2.1, happ.2.2.1, by norm_num [zeroRes], by norm_num [zeroRes],
    by norm_num [zeroRes]⟩

/-- Claim C3: the engine succeeds exactly when every active metal-type
key of the request resolves in the snapshot (so every other missing or
malformed line item degrades to a zero contribution rather than failing),
and every failure is the distinguished validation failure carrying an
active metal-type key that the snapshot lacks — a request with an unknown
metal type never yields a successful result that silently prices the
metal at 0. -/
theorem spec_c3 (q : QuoteRequest) (r : RateSnapshot) :
    ((∃ res, calculateQuote q r = Except.ok res) ↔
      ∀ t ∈ activeMetalKeys q, (findPrice r.metalPrices t).isSome = true) ∧
    (∀ t, calculateQuote q r = Except.error t →
      t ∈ activeMetalKeys q ∧ findPrice r.metalPrices t = none) := by
  constructor
  · rw [← metalPart_isOk_iff]
    constructor
    · rintro ⟨res, hres⟩
      obtain ⟨m, hm, _⟩ := (calculateQuote_ok_iff q r res).mp hres
      exact ⟨m, hm⟩
    · rintro ⟨m, hm⟩
      exact ⟨mkResult q r m, (calculateQuote_ok_iff q r _).mpr ⟨m, hm, rfl⟩⟩
  · intro t ht
    exact metalPart_error_key q r t ((calculateQuote_error_iff q r t).mp ht)

/-- Claim C3 witness: the request naming "unobtainium" on the seeded
snapshot fails with exactly that key, which is active and unresolvable. -/
theorem spec_c3_witness :
    calculateQuote unbReq ex5rates = Except.error "unobtainium" ∧
    "unobtainium" ∈ activeMetalKeys unbReq ∧
    findPrice ex5rates.metalPrices "unobtainium" = none := by
  have herr : calculateQuote unbReq ex5rates = Except.error "unobtainium" := by
    simp +decide [calculateQuote, metalPart, resolveMetal, unbReq, ex5rates, seedMetalPrices,
      findPrice]
  have hkey := (spec_c3 unbReq ex5rates).2 "unobtainium" herr
  exact ⟨herr, hkey.1, hkey.2⟩

/-- Claim C4: when the request's metal type is found in the snapshot, the
result is independent of any caller-supplied metal_spot_price — two
requests identical except for that field calculate identically (the
engine never reads it). -/
theorem spec_c4 (q : QuoteRequest) (r : RateSnapshot) (t : String) (v : Option ℚ)
    (hmt : q.metal_type = some t)
    (hfound : (findPrice r.metalPrices t).isSome = true) :
    calculateQuote { q with metal_spot_price := v } r = calculateQuote q r := rfl

/-- Claim C4 witness: forging metal_spot_price = 1 on the sterling-silver
example changes nothing; the snapshot's 12 wins. -/
theorem spec_c4_witness :
    ex5req.metal_type = some "sterling_silver" ∧
    (findPrice ex5rates.metalPrices "sterling_silver").isSome = true ∧
    calculateQuote { ex5req with metal_spot_price := some 1 } ex5rates
      = calculateQuote ex5req ex5rates := by
  have hfound : (findPrice ex5rates.metalPrices "sterling_silver").isSome = true := by
    simp +decide [ex5rates, seedMetalPrices, findPrice]
  exact ⟨rfl, hfound, spec_c4 ex5req ex5rates "sterling_silver" (some 1) rfl hfound⟩

/-- Claim C8: the engine is deterministic — it is a pure function of its
two arguments, so identical inputs always produce identical results. -/
theorem spec_c8 (q1 q2 : QuoteRequest) (r1 r2 : RateSnapshot)
    (hq : q1 = q2) (hr : r1 = r2) :
    calculateQuote q1 r1 = calculateQuote q2 r2 := by
  rw [hq, hr]

/-- Claim C8 witness: two invocations on the identical sterling-silver
example inputs agree. -/
theorem spec_c8_witness :
    calculateQuote ex5req ex5rates = calculateQuote ex5req ex5rates :=
  spec_c8 ex5req ex5req ex5rates ex5rates rfl rfl

/-- Claim C9: every missing optional numeric field is treated as 0 by the
calculation, with the single exception of metal wastage (top-level and
per-variation), whose default is 10 percent; metal markup defaults to 0. -/
theorem spec_c9 (q : QuoteRequest) (r : RateSnapshot) :
    calculateQuote { q with metal_weight := none } r
      = calculateQuote { q with metal_weight := some 0 } r ∧
    calculateQuote { q with metal_wastage := none } r
      = calculateQuote { q with metal_wastage := some 10 } r ∧
    calculateQuote { q with metal_markup := none } r
      = calculateQuote { q with metal_markup := some 0 } r ∧
    calculateQuote { q with stone_markup := none } r
      = calculateQuote { q with stone_markup := some 0 } r ∧
    calculateQuote { q with cad_hours := none } r
      = calculateQuote { q with cad_hours := some 0 } r ∧
    calculateQuote { q with cad_base_rate := none } r
      = calculateQuote { q with cad_base_rate := some 0 } r ∧
    calculateQuote { q with cad_revisions := none } r
      = calculateQuote { q with cad_revisions := some 0 } r ∧
    calculateQuote { q with cad_rendering_cost := none } r
      = calculateQuote { q with cad_rendering_cost := some 0 } r ∧
    calculateQuote { q with cad_technical_cost := none } r
      = calculateQuote { q with cad_technical_cost := some 0 } r ∧
    calculateQuote { q with cad_markup := none } r
      = calculateQuote { q with cad_markup := some 0 } r ∧
    calculateQuote { q with manufacturing_hours := none } r
      = calculateQuote { q with manufacturing_hours := some 0 } r ∧
    calculateQuote { q with manufacturing_base_rate := none } r
      = calculateQuote { q with manufacturing_base_rate := some 0 } r ∧
    calculateQuote { q with manufacturing_markup := none } r
      = calculateQuote { q with manufacturing_markup := some 0 } r ∧
    calculateQuote { q with finishing_cost := none } r
      = calculateQuote { q with finishing_cost := some 0 } r ∧
    calculateQuote { q with plating_cost := none } r
      = calculateQuote { q with plating_cost := some 0 } r ∧
    calculateQuote { q with finishing_markup := none } r
      = calculateQuote { q with finishing_markup := some 0 } r ∧
    calculateQuote { q with findings_markup := none } r
      = calculateQuote { q with findings_markup := some 0 } r ∧
    (∀ v : DesignVariation,
      variationMetal r { v with metal_weight := none }
        = variationMetal r { v with metal_weight := some 0 } ∧
      variationMetal r { v with metal_wastage := none }
        = variationMetal r { v with metal_wastage := some 10 } ∧
      variationMetal r { v with metal_markup := none }
        = variationMetal r { v with metal_markup := some 0 }) ∧
    (∀ e : StoneCategory,
      stoneEntryCost r { e with count := none }
        = stoneEntryCost r { e with count := some 0 }) ∧
    findingCost { cost := none } = findingCost { cost := some 0 } := by
  refine ⟨rfl, rfl, rfl, rfl, rfl, rfl, rfl, rfl, rfl, rfl, rfl, rfl, rfl, rfl, rfl, rfl,
    rfl, fun v => ⟨rfl, rfl, rfl⟩, fun e => rfl, rfl⟩

/-- The end-to-end sterling-silver example evaluates to its expected
result. -/
lemma calc_ex5_eq : calculateQuote ex5req ex5rates = Except.ok ex5res := by
  simp +decide [calculateQuote, metalPart, resolveMetal, findPrice, ex5req, ex5rates,
    seedMetalPrices, ex5res, mkResult, mkSections, mkTotals, stoneEntryCost,
    findingCost] <;> norm_num

/-- The collection-mode example evaluates to its expected result. -/
lemma calc_c6_eq : calculateQuote c6req c6rates = Except.ok c6res := by
  simp +decide [calculateQuote, metalPart, collectionPart, resolveVariations,
    variationMetal, resolveMetal, findPrice, c6req, c6rates, c6res, mkResult, mkSections,
    mkTotals, stoneEntryCost, findingCost] <;> norm_num

/-- The stones-only example evaluates to its expected result. -/
lemma calc_c7_eq : calculateQuote c7req c7rates = Except.ok c7res := by
  simp +decide [calculateQuote, metalPart, resolveMetal, findPrice, c7req, c7rates, c7res,
    mkResult, mkSections, mkTotals, stoneEntryCost, stoneUnitCost, findStoneCost,
    findingCost] <;> norm_num

/-- Claim C5: in single-metal mode, with a resolved spot price the metal
cost is weight x spot x (1 + wastage/100) and the metal price is
cost x (1 + markup/100), the result records the snapshot's spot price, and
with no metal type the metal section's cost and price are 0. -/
theorem spec_c5 (q : QuoteRequest) (r : RateSnapshot) (res : CalculationResult)
    (hv : q.design_variations = []) (hok : calculateQuote q r = Except.ok res) :
    (∀ t sp, q.metal_type = some t → findPrice r.metalPrices t = some sp →
      res.sections.metal.spotPrice = sp ∧
      res.sections.metal.cost
        = q.metal_weight.getD 0 * sp * (1 + q.metal_wastage.getD 10 / 100) ∧
      res.sections.metal.price
        = res.sections.metal.cost * (1 + q.metal_markup.getD 0 / 100)) ∧
    (q.metal_type = none →
      res.sections.metal.cost = 0 ∧ res.sections.metal.price = 0) := by
  obtain ⟨m, hm, rfl⟩ := (calculateQuote_ok_iff q r res).mp hok
  constructor
  · intro t sp hmt hsp
    have hms := metalPart_single_some q r t sp hv hmt hsp
    rw [hms] at hm
    obtain rfl := Except.ok.inj hm
    exact ⟨rfl, rfl, rfl⟩
  · intro hmt
    have hms := metalPart_single_none q r hv hmt
    rw [hms] at hm
    obtain rfl := Except.ok.inj hm
    exact ⟨rfl, rfl⟩

/-- Claim C5 witness: sterling_silver at the seeded spot 12, weight 20 g,
wastage 10, markup 5 yields metal cost 264, metal price 277.20, subtotal
264, total 277.20 and margin 100/21 (about 4.76 percent). -/
theorem spec_c5_witness :
    ex5req.design_variations = [] ∧
    calculateQuote ex5req ex5rates = Except.ok ex5res ∧
    ((∀ t sp, ex5req.metal_type = some t → findPrice ex5rates.metalPrices t = some sp →
        ex5res.sections.metal.spotPrice = sp ∧
        ex5res.sections.metal.cost
          = ex5req.metal_weight.getD 0 * sp * (1 + ex5req.metal_wastage.getD 10 / 100) ∧
        ex5res.sections.metal.price
          = ex5res.sections.metal.cost * (1 + ex5req.metal_markup.getD 0 / 100)) ∧
      (ex5req.metal_type = none →
        ex5res.sections.metal.cost = 0 ∧ ex5res.sections.metal.price = 0)) ∧
    ex5res.sections.metal.cost = 264 ∧ ex5res.sections.metal.price = 277.2 ∧
    ex5res.totals.subtotalCost = 264 ∧ ex5res.totals.totalPrice = 277.2 ∧
    ex5res.totals.margin = 100 / 21 := by
  refine ⟨rfl, calc_ex5_eq, spec_c5 ex5req ex5rates ex5res rfl calc_ex5_eq, ?_, ?_, ?_,
    ?_, ?_⟩ <;> norm_num [ex5res]

/-- Claim C6: with a non-empty design-variation list, the metal section is
the sum of the per-variation costs and of the per-variation prices; every
variation with enabled = false contributes the zero section and any other
variation is resolved exactly as single-metal mode with its own fields;
the single-metal fields of the request are ignored. -/
theorem spec_c6 (q : QuoteRequest) (r : RateSnapshot) (res : CalculationResult)
    (hvs : q.design_variations ≠ []) (hok : calculateQuote q r = Except.ok res) :
    (∀ v ∈ q.design_variations, ∃ m, variationMetal r v = Except.ok m) ∧
    res.sections.metal.cost = (q.design_variations.map
      (fun v => ((variationMetal r v).toOption.getD default).cost)).sum ∧
    res.sections.metal.price = (q.design_variations.map
      (fun v => ((variationMetal r v).toOption.getD default).price)).sum ∧
    (∀ v ∈ q.design_variations, v.enabled = some false →
      variationMetal r v = Except.ok ⟨0, 0, 0⟩) ∧
    (∀ v ∈ q.design_variations, ¬ v.enabled = some false →
      variationMetal r v = resolveMetal r v.metal_type (v.metal_weight.getD 0)
        (v.metal_wastage.getD 10) (v.metal_markup.getD 0)) ∧
    (∀ mt w wa mk sp,
      calculateQuote
        { q with
            metal_type := mt
            metal_weight := w
            metal_wastage := wa
            metal_markup := mk
            metal_spot_price := sp } r = calculateQuote q r) := by
  have hne : ¬ (q.design_variations.isEmpty = true) := by
    rw [List.isEmpty_iff]
    exact hvs
  obtain ⟨m, hm, rfl⟩ := (calculateQuote_ok_iff q r res).mp hok
  obtain ⟨hall, hc, hp⟩ := metalPart_collection q r m hne hm
  refine ⟨hall, ?_, ?_, ?_, ?_, ?_⟩
  · simpa using hc
  · simpa using hp
  · intro v _ he
    exact variationMetal_disabled r v he
  · intro v _ he
    exact variationMetal_enabled r v he
  · intro mt w wa mk sp
    have hne2 : ¬ (({ q with
        metal_type := mt
        metal_weight := w
        metal_wastage := wa
        metal_markup := mk
        metal_spot_price := sp } : QuoteRequest).design_variations.isEmpty = true) := hne
    unfold calculateQuote metalPart
    rw [if_neg hne2, if_neg hne]
    rfl

/-- Claim C6 witness: the two enabled variations (5 g spot 850 wastage 10
markup 0, and 3 g spot 850 wastage 0 markup 20) sum to metal cost 7225 and
metal price 7735, regardless of the disabled third variation. -/
theorem spec_c6_witness :
    c6req.design_variations ≠ [] ∧
    calculateQuote c6req c6rates = Except.ok c6res ∧
    (∀ v ∈ c6req.design_variations, ∃ m, variationMetal c6rates v = Except.ok m) ∧
    c6res.sections.metal.cost = 7225 ∧
    c6res.sections.metal.price = 7735 := by
  have hvs : c6req.design_variations ≠ [] := by simp [c6req]
  have happ := spec_c6 c6req c6rates c6res hvs calc_c6_eq
  exact ⟨hvs, calc_c6_eq, happ.1, by norm_num [c6res], by norm_num [c6res]⟩

/-- Claim C2 counterexample: in collection mode the metal section's price
is not the section cost with the request's metal markup applied — the
collection example has metal markup 0 but price 7735 over cost 7225, so
the per-section markup equation fails for the metal section even with a
nonnegative markup. -/
theorem spec_c2_counterexample :
    calculateQuote c6req c6rates = Except.ok c6res ∧
    0 ≤ c6req.metal_markup.getD 0 ∧
    ¬ (c6res.sections.metal.price
        = c6res.sections.metal.cost * (1 + c6req.metal_markup.getD 0 / 100)) := by
  refine ⟨calc_c6_eq, ?_, ?_⟩
  · norm_num [c6req]
  · norm_num [c6res, c6req]

/-- Claim C2 amended: with a well-formed request and nonnegative snapshot,
every non-metal section's price is exactly its cost with that section's
markup applied (hence equal to 2 decimal places); the metal section
satisfies the equation with the request's metal markup in single-metal
mode, and per variation (with the variation's own markup) in collection
mode; and every section, the collection-mode metal section included,
satisfies price >= cost. -/
theorem spec_c2_amended (q : QuoteRequest) (r : RateSnapshot) (res : CalculationResult)
    (hwf : q.WellFormed) (hr : r.NonNeg)
    (hok : calculateQuote q r = Except.ok res) :
    res.sections.stones.price
      = res.sections.stones.cost * (1 + q.stone_markup.getD 0 / 100) ∧
    res.sections.cad.price
      = res.sections.cad.cost * (1 + q.cad_markup.getD 0 / 100) ∧
    res.sections.manufacturing.price
      = res.sections.manufacturing.cost * (1 + q.manufacturing_markup.getD 0 / 100) ∧
    res.sections.finishing.price
      = res.sections.finishing.cost * (1 + q.finishing_markup.getD 0 / 100) ∧
    res.sections.findings.price
      = res.sections.findings.cost * (1 + q.findings_markup.getD 0 / 100) ∧
    (q.design_variations = [] →
      res.sections.metal.price
        = res.sections.metal.cost * (1 + q.metal_markup.getD 0 / 100)) ∧
    (∀ v ∈ q.design_variations, ∀ m2, variationMetal r v = Except.ok m2 →
      m2.price = m2.cost * (1 + v.metal_markup.getD 0 / 100)) ∧
    (res.sections.metal.cost ≤ res.sections.metal.price ∧
      res.sections.stones.cost ≤ res.sections.stones.price ∧
      res.sections.cad.cost ≤ res.sections.cad.price ∧
      res.sections.manufacturing.cost ≤ res.sections.manufacturing.price ∧
      res.sections.finishing.cost ≤ res.sections.finishing.price ∧
      res.sections.findings.cost ≤ res.sections.findings.price) := by
  obtain ⟨m, hm, rfl⟩ := (calculateQuote_ok_iff q r res).mp hok
  have hmb := metalPart_nonneg q r m hwf hr hm
  have hb := sections_bounds q r m hwf hr hmb
  refine ⟨rfl, rfl, rfl, rfl, rfl, ?_, ?_, ?_⟩
  · intro hv
    exact metalPart_single_price q r m hv hm
  · intro v _ m2 h2
    exact variationMetal_price r v m2 h2
  · exact ⟨hb.1.2, hb.2.1.2, hb.2.2.1.2, hb.2.2.2.1.2, hb.2.2.2.2.1.2, hb.2.2.2.2.2.2⟩

/-- Claim C2 amended witness: the sterling-silver example is well-formed,
its metal price is its metal cost with the 5 percent markup applied, and
its metal price is at least its metal cost. -/
theorem spec_c2_amended_witness :
    ex5req.WellFormed ∧ ex5rates.NonNeg ∧
    calculateQuote ex5req ex5rates = Except.ok ex5res ∧
    ex5res.sections.metal.price
      = ex5res.sections.metal.cost * (1 + ex5req.metal_markup.getD 0 / 100) ∧
    ex5res.sections.metal.cost ≤ ex5res.sections.metal.price := by
  have hwf : ex5req.WellFormed := by
    norm_num [QuoteRequest.WellFormed, ex5req]
  have hr : ex5rates.NonNeg := by
    norm_num [RateSnapshot.NonNeg, ex5rates, seedMetalPrices]
  have happ := spec_c2_amended ex5req ex5rates ex5res hwf hr calc_ex5_eq
  exact ⟨hwf, hr, calc_ex5_eq, happ.2.2.2.2.2.1 rfl, happ.2.2.2.2.2.2.2.1⟩

/-- Claim C7: each stone entry contributes count times its unit cost,
where the unit cost is the caller override when present, otherwise the
snapshot's value for the (type, style, size) triple, otherwise 0; the
section cost is the sum of the entry costs and the section price applies
the stone markup; and stone entries can never make the engine fail —
replacing the stone list with any list at all leaves the engine
succeeding. -/
theorem spec_c7 (q : QuoteRequest) (r : RateSnapshot) (res : CalculationResult)
    (hok : calculateQuote q r = Except.ok res) :
    res.sections.stones.cost = (q.stone_categories.map
      (fun e => e.count.getD 0 *
        (match e.cost_per_stone with
         | some c => c
         | none => (findStoneCost r.stonePrices e.stone_type e.setting_style
             e.size_category).getD 0))).sum ∧
    res.sections.stones.price
      = res.sections.stones.cost * (1 + q.stone_markup.getD 0 / 100) ∧
    (∀ es : List StoneCategory,
      ∃ res2, calculateQuote { q with stone_categories := es } r = Except.ok res2) := by
  obtain ⟨m, hm, rfl⟩ := (calculateQuote_ok_iff q r res).mp hok
  refine ⟨rfl, rfl, ?_⟩
  intro es
  have hmp : metalPart { q with stone_categories := es } r = metalPart q r := rfl
  refine ⟨mkResult { q with stone_categories := es } r m,
    (calculateQuote_ok_iff _ _ _).mpr ⟨m, ?_, rfl⟩⟩
  rw [hmp]
  exact hm

/-- Claim C7 witness: an entry with override 30 and count 2, an entry
resolved from the snapshot at 50 with count 3, and an entry absent from
the snapshot with no override and count 4 give section cost
60 + 150 + 0 = 210 and price 231 at 10 percent stone markup, with no
failure. -/
theorem spec_c7_witness :
    calculateQuote c7req c7rates = Except.ok c7res ∧
    c7res.sections.stones.cost = 210 ∧ c7res.sections.stones.price = 231 ∧
    c7res.sections.stones.price
      = c7res.sections.stones.cost * (1 + c7req.stone_markup.getD 0 / 100) := by
  have happ := spec_c7 c7req c7rates c7res calc_c7_eq
  exact ⟨calc_c7_eq, by norm_num [c7res], by norm_num [c7res], happ.2.1⟩

/-- Claim C10: on every successful create and update, the persisted
metal_spot_price, subtotal and total columns are exactly the calculated
validated spot price, subtotalCost and totalPrice, and they are
independent of any metal_spot_price, subtotal or total values the caller
put in the request body. -/
theorem spec_c10 (body : QuoteRequest) (rates : RateSnapshot) (c : CalculationResult)
    (hok : calculateQuote body rates = Except.ok c) :
    createQuote body rates = Except.ok (insertedRow body c) ∧
    (insertedRow body c).metal_spot_price = c.sections.metal.spotPrice ∧
    (insertedRow body c).subtotal = c.totals.subtotalCost ∧
    (insertedRow body c).total = c.totals.totalPrice ∧
    updateQuote body rates = Except.ok (mergedUpdateData body c) ∧
    (mergedUpdateData body c).metal_spot_price = some c.sections.metal.spotPrice ∧
    (mergedUpdateData body c).subtotal = some c.totals.subtotalCost ∧
    (mergedUpdateData body c).total = some c.totals.totalPrice ∧
    (∀ sp sub tot,
      createQuote
        { body with
            metal_spot_price := sp
            subtotal := sub
            total := tot } rates = createQuote body rates ∧
      updateQuote
        { body with
            metal_spot_price := sp
            subtotal := sub
            total := tot } rates = updateQuote body rates) := by
  refine ⟨?_, rfl, rfl, rfl, ?_, rfl, rfl, rfl, ?_⟩
  · unfold createQuote
    rw [hok]
  · unfold updateQuote
    rw [hok]
  · intro sp sub tot
    exact ⟨rfl, rfl⟩

/-- Claim C10 witness: a body that forges metal_spot_price = 1,
subtotal = 999 and total = 999 still persists spot 12, subtotal 264 and
total 277.20 — the calculated values. -/
theorem spec_c10_witness :
    calculateQuote c10body ex5rates = Except.ok ex5res ∧
    (insertedRow c10body ex5res).metal_spot_price = 12 ∧
    (insertedRow c10body ex5res).subtotal = 264 ∧
    (insertedRow c10body ex5res).total = 277.2 ∧
    createQuote c10body ex5rates = Except.ok (insertedRow c10body ex5res) ∧
    (mergedUpdateData c10body ex5res).metal_spot_price = some 12 := by
  have h1 : calculateQuote c10body ex5rates = calculateQuote ex5req ex5rates := rfl
  have hok : calculateQuote c10body ex5rates = Except.ok ex5res := h1.trans calc_ex5_eq
  have happ := spec_c10 c10body ex5rates ex5res hok
  refine ⟨hok, ?_, ?_, ?_, happ.1, ?_⟩
  · rw [happ.2.1]
    norm_num [ex5res]
  · rw [happ.2.2.1]
    norm_num [ex5res]
  · rw [happ.2.2.2.1]
    norm_num [ex5res]
  · rw [happ.2.2.2.2.2.1]
    norm_num [ex5res]
